import Mathlib

/-!
Verification of the `log` crate (a lightweight logging facade, `src/lib.rs`)
against its natural-language specification.

The development shallowly embeds the crate:

* the level model (`LogLevel`, `LogLevelFilter`, their `usize` ordinals,
  cross-scale comparison, and `FromStr`/`Display` text conversion);
* the global facade state (`LOGGER`, `REFCOUNT`, `MAX_LOG_LEVEL_FILTER`)
  together with the sequential meaning of `set_logger`, `logger()`,
  `__enabled`, `__log` and the `MaxLogLevelFilter` token, for both the
  default and the `freestanding` build of the crate;
* a small-step interleaving machine whose atomic steps are exactly the
  atomic instructions of the source (`fetch_add`, `load`, `fetch_sub`,
  `compare_and_swap`, `store`, `swap`, the `atexit` registration and the
  shutdown drain loop), used for the concurrency claims.

Machine integers are modelled as `Nat` (the `usize` ordinals never get near
overflow) and the refcount as `Int` so that underflow is observable.
-/

namespace LogSpec

/-! ## Level model (`LogLevel`, `LogLevelFilter`) -/

/-- `enum LogLevel` from the source; discriminants start at 1 so that they
line up with `LogLevelFilter`. -/
inductive LogLevel where
  | Error
  | Warn
  | Info
  | Debug
  | Trace
deriving DecidableEq, Repr, Fintype

/-- `enum LogLevelFilter` from the source; `Off` has discriminant 0. -/
inductive LogLevelFilter where
  | Off
  | Error
  | Warn
  | Info
  | Debug
  | Trace
deriving DecidableEq, Repr, Fintype

/-- The `usize` discriminant of a `LogLevel` (`*self as usize`). -/
def LogLevel.toUsize : LogLevel → Nat
  | .Error => 1
  | .Warn => 2
  | .Info => 3
  | .Debug => 4
  | .Trace => 5

/-- The `usize` discriminant of a `LogLevelFilter` (`*self as usize`). -/
def LogLevelFilter.toUsize : LogLevelFilter → Nat
  | .Off => 0
  | .Error => 1
  | .Warn => 2
  | .Info => 3
  | .Debug => 4
  | .Trace => 5

/-- `LogLevel::from_usize`. -/
def LogLevel.from_usize : Nat → Option LogLevel
  | 1 => some .Error
  | 2 => some .Warn
  | 3 => some .Info
  | 4 => some .Debug
  | 5 => some .Trace
  | _ => none

/-- `LogLevelFilter::from_usize`. -/
def LogLevelFilter.from_usize : Nat → Option LogLevelFilter
  | 0 => some .Off
  | 1 => some .Error
  | 2 => some .Warn
  | 3 => some .Info
  | 4 => some .Debug
  | 5 => some .Trace
  | _ => none

/-- `Ord for LogLevel`: `(*self as usize).cmp(&(*other as usize))`. -/
def LogLevel.cmp (a b : LogLevel) : Ordering := compare a.toUsize b.toUsize

/-- `Ord for LogLevelFilter`. -/
def LogLevelFilter.cmp (a b : LogLevelFilter) : Ordering :=
  compare a.toUsize b.toUsize

/-- `PartialOrd<LogLevelFilter> for LogLevel`:
`Some((*self as usize).cmp(&(*other as usize)))`. -/
def LogLevel.cmp_with_filter (a : LogLevel) (b : LogLevelFilter) :
    Option Ordering :=
  some (compare a.toUsize b.toUsize)

/-- `PartialOrd<LogLevel> for LogLevelFilter`:
`other.partial_cmp(self).map(|x| x.reverse())`. -/
def LogLevelFilter.cmp_with_level (a : LogLevelFilter) (b : LogLevel) :
    Option Ordering :=
  (LogLevel.cmp_with_filter b a).map Ordering.swap

/-- `PartialEq for LogLevel`: `*self as usize == *other as usize`. -/
def LogLevel.beq (a b : LogLevel) : Bool := a.toUsize == b.toUsize

/-- `PartialEq<LogLevelFilter> for LogLevel`. -/
def LogLevel.beq_filter (a : LogLevel) (b : LogLevelFilter) : Bool :=
  a.toUsize == b.toUsize

/-- `PartialEq for LogLevelFilter`. -/
def LogLevelFilter.beq (a b : LogLevelFilter) : Bool := a.toUsize == b.toUsize

/-- `PartialEq<LogLevel> for LogLevelFilter`: `other.eq(self)`. -/
def LogLevelFilter.beq_level (a : LogLevelFilter) (b : LogLevel) : Bool :=
  LogLevel.beq_filter b a

/-- Rust `a < b` on two `LogLevel`s (derived from `Ord::cmp`). -/
def LogLevel.ltb (a b : LogLevel) : Bool := LogLevel.cmp a b == .lt

/-- Rust `a < b` on two `LogLevelFilter`s. -/
def LogLevelFilter.ltb (a b : LogLevelFilter) : Bool :=
  LogLevelFilter.cmp a b == .lt

/-- Rust `a < b` with `a : LogLevel`, `b : LogLevelFilter`
(`PartialOrd::lt`: `partial_cmp == Some(Less)`). -/
def LogLevel.lt_filter (a : LogLevel) (b : LogLevelFilter) : Bool :=
  LogLevel.cmp_with_filter a b == some .lt

/-- Rust `a > b` with `a : LogLevel`, `b : LogLevelFilter`. -/
def LogLevel.gt_filter (a : LogLevel) (b : LogLevelFilter) : Bool :=
  LogLevel.cmp_with_filter a b == some .gt

/-- Rust `a < b` with `a : LogLevelFilter`, `b : LogLevel`. -/
def LogLevelFilter.lt_level (a : LogLevelFilter) (b : LogLevel) : Bool :=
  LogLevelFilter.cmp_with_level a b == some .lt

/-- Rust `a > b` with `a : LogLevelFilter`, `b : LogLevel`. -/
def LogLevelFilter.gt_level (a : LogLevelFilter) (b : LogLevel) : Bool :=
  LogLevelFilter.cmp_with_level a b == some .gt

/-- `LogLevel::to_log_level_filter`:
`LogLevelFilter::from_usize(*self as usize).unwrap()`.  The `unwrap` is
modelled by keeping the `Option`; the theorems show it is always `some`. -/
def LogLevel.to_log_level_filter (l : LogLevel) : Option LogLevelFilter :=
  LogLevelFilter.from_usize l.toUsize

/-- `LogLevelFilter::to_log_level`: `LogLevel::from_usize(*self as usize)`. -/
def LogLevelFilter.to_log_level (f : LogLevelFilter) : Option LogLevel :=
  LogLevel.from_usize f.toUsize

/-! ## Text conversion -/

/-- `LOG_LEVEL_NAMES`. -/
def LOG_LEVEL_NAMES : List String :=
  ["OFF", "ERROR", "WARN", "INFO", "DEBUG", "TRACE"]

/-- ASCII lowercasing of a single character (`u8::to_ascii_lowercase`,
identity outside `A`–`Z`). -/
def toAsciiLower (c : Char) : Char :=
  if 65 ≤ c.toNat ∧ c.toNat ≤ 90 then Char.ofNat (c.toNat + 32) else c

/-- `str::eq_ignore_ascii_case`. -/
def eq_ignore_ascii_case (a b : String) : Bool :=
  a.data.map toAsciiLower == b.data.map toAsciiLower

/-- `Iterator::position`: index of the first element satisfying `p`. -/
def position (p : α → Bool) : List α → Option Nat
  | [] => none
  | x :: xs => if p x then some 0 else (position p xs).map (· + 1)

/-- The `ok_or` helper from the source. -/
def ok_or (t : Option α) (e : ε) : Except ε α :=
  match t with
  | some t => Except.ok t
  | none => Except.error e

/-- `FromStr for LogLevel` (default, case-insensitive build):
find the position of a case-insensitive match, drop position 0 (`OFF`),
then convert through `from_usize` (the source's `unwrap` can only be
reached with an index `1`–`5`, where `from_usize` is `some`). -/
def LogLevel.from_str (level : String) : Except Unit LogLevel :=
  ok_or
    ((position (fun name => eq_ignore_ascii_case name level)
        LOG_LEVEL_NAMES).bind
      (fun idx => if idx ≠ 0 then LogLevel.from_usize idx else none))
    ()

/-- `FromStr for LogLevelFilter` (default, case-insensitive build). -/
def LogLevelFilter.from_str (level : String) : Except Unit LogLevelFilter :=
  ok_or
    ((position (fun name => eq_ignore_ascii_case name level)
        LOG_LEVEL_NAMES).bind
      (fun p => LogLevelFilter.from_usize p))
    ()

/-- `Display for LogLevel`: `LOG_LEVEL_NAMES[*self as usize]` (the index is
always in bounds, so the `getD` default is never used). -/
def LogLevel.fmt_token (l : LogLevel) : String :=
  LOG_LEVEL_NAMES.getD l.toUsize ""

/-- `Display for LogLevelFilter`. -/
def LogLevelFilter.fmt_token (f : LogLevelFilter) : String :=
  LOG_LEVEL_NAMES.getD f.toUsize ""

/-! ## Global facade state -/

/-- `const UNINITIALIZED: usize = 0`. -/
def UNINITIALIZED : Nat := 0

/-- `const INITIALIZING: usize = 1` (also the shutting-down sentinel). -/
def INITIALIZING : Nat := 1

/-- The three static atomics of the crate, plus the `atexit` registration
performed by a successful `set_logger`.  `LOGGER` holds `0`, `1` or a
pointer to the installed logger (modelled as a `Nat` handle ≥ 2);
`REFCOUNT` is modelled as an `Int` so that an underflow would be visible. -/
structure GState where
  logger : Nat
  refcount : Int
  maxLevel : Nat
  atexitReg : Bool
deriving DecidableEq, Repr

/-- The zero-initialized statics at program start
(`ATOMIC_USIZE_INIT` everywhere, no `atexit` handler registered). -/
def initialG : GState :=
  { logger := UNINITIALIZED, refcount := 0, maxLevel := 0, atexitReg := false }

/-- `struct SetLoggerError(())` — the single error type of the crate. -/
structure SetLoggerError where
deriving DecidableEq, Repr

/-- `MaxLogLevelFilter::set`: `MAX_LOG_LEVEL_FILTER.store(level as usize)`. -/
def MaxLogLevelFilter.set (g : GState) (level : LogLevelFilter) : GState :=
  { g with maxLevel := level.toUsize }

/-- `max_log_level()`: `transmute(MAX_LOG_LEVEL_FILTER.load(Relaxed))`.
The unchecked `transmute` is modelled by `from_usize`; a `none` result
corresponds to transmuting an out-of-range ordinal. -/
def max_log_level (g : GState) : Option LogLevelFilter :=
  LogLevelFilter.from_usize g.maxLevel

/-- `MaxLogLevelFilter::get`: delegates to `max_log_level()`. -/
def MaxLogLevelFilter.get (g : GState) : Option LogLevelFilter :=
  max_log_level g

/-- `LogLocation` (module path, file, line). -/
structure LogLocation where
  module_path : String
  file : String
  line : Nat
deriving DecidableEq, Repr

/-- An installed logger, reduced to its observable `enabled` answer; the
side effects of its `log` method are recorded as events instead. -/
structure Recorder where
  enabledFn : LogLevel → String → Bool

/-- The logger objects living behind handle values.  Handles `0` and `1`
are the state sentinels: no logger object ever lives there. -/
def RecHeap : Type := Nat → Option Recorder

/-- Observable interactions with a logger object. -/
inductive REvent where
  | enabledCall (handle : Nat) (level : LogLevel) (target : String)
  | logCall (handle : Nat) (level : LogLevel) (target : String)
      (loc : LogLocation) (args : String)
deriving DecidableEq, Repr

/-! ### Sequential meaning of the facade operations (default build) -/

/-- `set_logger` (default build), as one sequential action.  The factory
receives the token (hence may mutate the state through it) and returns the
handle that `Box::into_raw`-style transmutation produces.  The returned
`Bool` records whether the factory closure was invoked. -/
def set_logger (make_logger : GState → GState × Nat) (g : GState) :
    GState × Except SetLoggerError Unit × Bool :=
  if g.logger ≠ UNINITIALIZED then
    (g, Except.error {}, false)
  else
    let g1 := { g with logger := INITIALIZING }
    let p := make_logger g1
    let g2 := { p.1 with logger := p.2 }
    let g3 := { g2 with atexitReg := true }
    (g3, Except.ok (), true)

/-- `set_logger` (`freestanding` build): same compare-and-swap protocol,
no `atexit` registration. -/
def set_logger_fs (make_logger : GState → GState × Nat) (g : GState) :
    GState × Except SetLoggerError Unit × Bool :=
  if g.logger ≠ UNINITIALIZED then
    (g, Except.error {}, false)
  else
    let g1 := { g with logger := INITIALIZING }
    let p := make_logger g1
    (( { p.1 with logger := p.2 } : GState), Except.ok (), true)

/-- `logger()` (default build): increment `REFCOUNT`, load `LOGGER`; on a
sentinel value decrement back and return no guard, otherwise return a
guard around the loaded handle. -/
def logger (g : GState) : GState × Option Nat :=
  let g1 := { g with refcount := g.refcount + 1 }
  let l := g1.logger
  if l = UNINITIALIZED ∨ l = INITIALIZING then
    ({ g1 with refcount := g1.refcount - 1 }, none)
  else
    (g1, some l)

/-- `logger()` (`freestanding` build): no refcounting, no state check —
the raw value of `LOGGER` is unconditionally wrapped in a guard. -/
def logger_fs (g : GState) : Option Nat :=
  some g.logger

/-- `__enabled` (default build).  Returns the updated state (the guard is
dropped on every exit path), the call's boolean answer, and the recorder
events.  A `none` answer models dereferencing a handle with no logger
object behind it. -/
def __enabled (heap : RecHeap) (g : GState) (level : LogLevel)
    (target : String) : GState × Option Bool × List REvent :=
  match logger g with
  | (g1, none) => (g1, some false, [])
  | (g1, some h) =>
      (( { g1 with refcount := g1.refcount - 1 } : GState),
        (heap h).map (fun r => r.enabledFn level target),
        [REvent.enabledCall h level target])

/-- `__log` (default build). -/
def __log (_heap : RecHeap) (g : GState) (level : LogLevel) (target : String)
    (loc : LogLocation) (args : String) : GState × List REvent :=
  match logger g with
  | (g1, none) => (g1, [])
  | (g1, some h) =>
      (( { g1 with refcount := g1.refcount - 1 } : GState),
        [REvent.logCall h level target loc args])

/-- `__enabled` (`freestanding` build): `logger_fs` always produces a
guard, so the loaded value — sentinel or not — is dereferenced. -/
def __enabled_fs (heap : RecHeap) (g : GState) (level : LogLevel)
    (target : String) : Option Bool × List REvent :=
  match logger_fs g with
  | none => (some false, [])
  | some h =>
      ((heap h).map (fun r => r.enabledFn level target),
        [REvent.enabledCall h level target])

/-- `__log` (`freestanding` build). -/
def __log_fs (_heap : RecHeap) (g : GState) (level : LogLevel)
    (target : String) (loc : LogLocation) (args : String) : List REvent :=
  match logger_fs g with
  | none => []
  | some h => [REvent.logCall h level target loc args]

/-! ## Interleaving machine (default build)

Each thread executes one facade operation; each machine step is one atomic
instruction of the source.  Accessor threads run `__enabled`/`__log`,
installer threads run `set_logger`, setter threads model the installed
logger calling `MaxLogLevelFilter::set`, and the single shutdown thread
models the `atexit`-registered drain routine. -/

/-- Which entry point an accessor thread is executing. -/
inductive AccOp where
  | enabledOp (level : LogLevel) (target : String)
  | logOp (level : LogLevel) (target : String) (loc : LogLocation)
      (args : String)
deriving DecidableEq, Repr

/-- Program counter of an accessor thread:
`ready` — before `REFCOUNT.fetch_add(1)`;
`counted` — incremented, before `LOGGER.load()`;
`checked v` — loaded `v`;
`usingRec v` — holding a guard, recorder call issued;
`finished r` — returned (`r` = handle used, if any). -/
inductive AccPC where
  | ready
  | counted
  | checked (v : Nat)
  | usingRec (v : Nat)
  | finished (r : Option Nat)
deriving DecidableEq, Repr

structure AccThread where
  op : AccOp
  pc : AccPC
deriving DecidableEq, Repr

/-- Program counter of a `set_logger` thread. -/
inductive InstPC where
  | iready
  | won
  | made
  | stored
  | idone
  | ifailed
deriving DecidableEq, Repr

/-- An installer thread: the factory closure is summarised by the level it
sets through the token (if any) and the handle of the logger it returns
(a transmuted `Box` pointer, never a sentinel: `2 ≤ handle`). -/
structure InstThread where
  fset : Option LogLevelFilter
  handle : Nat
  pc : InstPC
deriving DecidableEq, Repr

/-- Program counter of the shutdown routine:
swap `LOGGER` to the sentinel, spin until `REFCOUNT` is `0`, release. -/
inductive ShutPC where
  | notStarted
  | swapped (old : Nat)
  | drained (old : Nat)
  | sdone (old : Nat)
deriving DecidableEq, Repr

/-- A thread in which the installed logger calls the token's `set`. -/
structure SetterThread where
  f : LogLevelFilter
  done : Bool
deriving DecidableEq, Repr

/-- A machine configuration: the statics plus every thread's state. -/
structure Config where
  g : GState
  accs : List AccThread
  insts : List InstThread
  setters : List SetterThread
  shut : ShutPC
deriving DecidableEq, Repr

/-- Observable step labels. -/
inductive Label where
  | tau
  | recCall (tid : Nat) (handle : Nat)
  | factoryRun (tid : Nat)
  | storeActive (handle : Nat)
  | swapOut (old : Nat)
  | releaseRec (handle : Nat)
  | setMax (f : LogLevelFilter)
deriving DecidableEq, Repr

/-- One atomic step of the machine. -/
inductive StepM : Config → Label → Config → Prop where
  /-- `REFCOUNT.fetch_add(1, SeqCst)` at the top of `logger()`. -/
  | accAdd (c : Config) (i : Nat) (t : AccThread)
      (hget : c.accs.get? i = some t) (hpc : t.pc = .ready) :
      StepM c .tau
        { c with g := { c.g with refcount := c.g.refcount + 1 },
                 accs := c.accs.set i { t with pc := .counted } }
  /-- `LOGGER.load(SeqCst)`. -/
  | accLoad (c : Config) (i : Nat) (t : AccThread)
      (hget : c.accs.get? i = some t) (hpc : t.pc = .counted) :
      StepM c .tau
        { c with accs := c.accs.set i { t with pc := .checked c.g.logger } }
  /-- Sentinel loaded: `REFCOUNT.fetch_sub(1)` and return no guard. -/
  | accMiss (c : Config) (i : Nat) (t : AccThread) (v : Nat)
      (hget : c.accs.get? i = some t) (hpc : t.pc = .checked v)
      (hv : v = UNINITIALIZED ∨ v = INITIALIZING) :
      StepM c .tau
        { c with g := { c.g with refcount := c.g.refcount - 1 },
                 accs := c.accs.set i { t with pc := .finished none } }
  /-- Guard obtained: dereference it and call the recorder. -/
  | accHit (c : Config) (i : Nat) (t : AccThread) (v : Nat)
      (hget : c.accs.get? i = some t) (hpc : t.pc = .checked v)
      (hv0 : v ≠ UNINITIALIZED) (hv1 : v ≠ INITIALIZING) :
      StepM c (.recCall i v)
        { c with accs := c.accs.set i { t with pc := .usingRec v } }
  /-- `Drop for LoggerGuard`: `REFCOUNT.fetch_sub(1, SeqCst)`. -/
  | accDrop (c : Config) (i : Nat) (t : AccThread) (v : Nat)
      (hget : c.accs.get? i = some t) (hpc : t.pc = .usingRec v) :
      StepM c .tau
        { c with g := { c.g with refcount := c.g.refcount - 1 },
                 accs := c.accs.set i { t with pc := .finished (some v) } }
  /-- `LOGGER.compare_and_swap(UNINITIALIZED, INITIALIZING)` succeeds. -/
  | instCasWin (c : Config) (j : Nat) (t : InstThread)
      (hget : c.insts.get? j = some t) (hpc : t.pc = .iready)
      (hl : c.g.logger = UNINITIALIZED) :
      StepM c .tau
        { c with g := { c.g with logger := INITIALIZING },
                 insts := c.insts.set j { t with pc := .won } }
  /-- The compare-and-swap fails: return the already-initialized error. -/
  | instCasFail (c : Config) (j : Nat) (t : InstThread)
      (hget : c.insts.get? j = some t) (hpc : t.pc = .iready)
      (hl : c.g.logger ≠ UNINITIALIZED) :
      StepM c .tau
        { c with insts := c.insts.set j { t with pc := .ifailed } }
  /-- Invoke the factory closure (its token use summarised by `fset`). -/
  | instFactory (c : Config) (j : Nat) (t : InstThread)
      (hget : c.insts.get? j = some t) (hpc : t.pc = .won) :
      StepM c (.factoryRun j)
        { c with g := (match t.fset with
                        | some f => MaxLogLevelFilter.set c.g f
                        | none => c.g),
                 insts := c.insts.set j { t with pc := .made } }
  /-- `LOGGER.store(logger, SeqCst)` — the slot becomes Active. -/
  | instStore (c : Config) (j : Nat) (t : InstThread)
      (hget : c.insts.get? j = some t) (hpc : t.pc = .made) :
      StepM c (.storeActive t.handle)
        { c with g := { c.g with logger := t.handle },
                 insts := c.insts.set j { t with pc := .stored } }
  /-- `libc::atexit(shutdown)`. -/
  | instAtexit (c : Config) (j : Nat) (t : InstThread)
      (hget : c.insts.get? j = some t) (hpc : t.pc = .stored) :
      StepM c .tau
        { c with g := { c.g with atexitReg := true },
                 insts := c.insts.set j { t with pc := .idone } }
  /-- `LOGGER.swap(INITIALIZING, SeqCst)` inside the `atexit` routine
  (which can only run once it has been registered). -/
  | shutSwap (c : Config)
      (hs : c.shut = .notStarted) (hreg : c.g.atexitReg = true) :
      StepM c (.swapOut c.g.logger)
        { c with g := { c.g with logger := INITIALIZING },
                 shut := .swapped c.g.logger }
  /-- The drain loop reads a non-zero `REFCOUNT` and spins. -/
  | shutSpin (c : Config) (old : Nat)
      (hs : c.shut = .swapped old) (hr : c.g.refcount ≠ 0) :
      StepM c .tau c
  /-- The drain loop reads `REFCOUNT == 0` and exits. -/
  | shutZero (c : Config) (old : Nat)
      (hs : c.shut = .swapped old) (hr : c.g.refcount = 0) :
      StepM c .tau { c with shut := .drained old }
  /-- `mem::transmute::<usize, Box<Box<Log>>>(logger)` is dropped:
  the logger object is released. -/
  | shutRelease (c : Config) (old : Nat)
      (hs : c.shut = .drained old) :
      StepM c (.releaseRec old) { c with shut := .sdone old }
  /-- The installed logger stores a new maximum level through the token. -/
  | setterStep (c : Config) (k : Nat) (t : SetterThread)
      (hget : c.setters.get? k = some t) (hd : t.done = false) :
      StepM c (.setMax t.f)
        { c with g := MaxLogLevelFilter.set c.g t.f,
                 setters := c.setters.set k { t with done := true } }

/-- Finite executions of the machine, collecting the step labels. -/
inductive ExecM : Config → List Label → Config → Prop where
  | refl (c : Config) : ExecM c [] c
  | cons (c : Config) (l : Label) (c1 : Config) (ls : List Label)
      (c2 : Config) (h1 : StepM c l c1) (h2 : ExecM c1 ls c2) :
      ExecM c (l :: ls) c2

/-- Initial configurations: zero-initialized statics, every thread at its
entry point, installer handles are genuine pointers (never a sentinel). -/
def InitConf (c : Config) : Prop :=
  c.g = initialG ∧
  (∀ t ∈ c.accs, t.pc = AccPC.ready) ∧
  (∀ t ∈ c.insts, t.pc = InstPC.iready ∧ 2 ≤ t.handle) ∧
  (∀ t ∈ c.setters, t.done = false) ∧
  c.shut = ShutPC.notStarted

instance (c : Config) : Decidable (InitConf c) := by
  unfold InitConf; infer_instance

/-- The shutdown routine has performed its state swap. -/
def pastSwap (c : Config) : Prop :=
  c.shut ≠ ShutPC.notStarted

instance (c : Config) : Decidable (pastSwap c) := by
  unfold pastSwap; infer_instance

/-- An accessor thread currently holds the guard refcount. -/
def AccThread.isCounted (t : AccThread) : Bool :=
  match t.pc with
  | .counted => true
  | .checked _ => true
  | .usingRec _ => true
  | _ => false

/-- Number of live guards (threads inside the counted region). -/
def countCounted (c : Config) : Nat :=
  c.accs.countP AccThread.isCounted

/-- An installer thread that won the compare-and-swap. -/
def InstThread.isWinner (t : InstThread) : Bool :=
  match t.pc with
  | .won => true
  | .made => true
  | .stored => true
  | .idone => true
  | _ => false

/-- An installer thread whose factory has run. -/
def InstThread.isMadeOn (t : InstThread) : Bool :=
  match t.pc with
  | .made => true
  | .stored => true
  | .idone => true
  | _ => false

/-- An installer thread that has stored its logger into the slot. -/
def InstThread.isStoredOn (t : InstThread) : Bool :=
  match t.pc with
  | .stored => true
  | .idone => true
  | _ => false

/-- Count of factory invocations that have happened, read off the state. -/
def facMeasure (c : Config) : Nat :=
  c.insts.countP InstThread.isMadeOn

/-- Count of stores into the slot that have happened. -/
def storeMeasure (c : Config) : Nat :=
  c.insts.countP InstThread.isStoredOn

/-- Whether the recorder has been released, read off the state. -/
def relMeasure (c : Config) : Nat :=
  match c.shut with
  | .sdone _ => 1
  | _ => 0

def Label.isFactoryL : Label → Bool
  | .factoryRun _ => true
  | _ => false

def Label.isStoreL : Label → Bool
  | .storeActive _ => true
  | _ => false

def Label.isReleaseL : Label → Bool
  | .releaseRec _ => true
  | _ => false

/-- Labels of steps that write `MAX_LOG_LEVEL_FILTER` (a factory may do so
through its token; a setter always does). -/
def Label.isMaxWriteL : Label → Bool
  | .factoryRun _ => true
  | .setMax _ => true
  | _ => false

/-- Accessor program points reachable by a call that begins after the
shutdown swap: the load can only ever observe the sentinel, so the thread
never reaches `usingRec`. -/
def SafeAccPC (pc : AccPC) : Prop :=
  pc = AccPC.ready ∨ pc = AccPC.counted ∨
  pc = AccPC.checked INITIALIZING ∨ pc = AccPC.finished none

/-- The machine invariant: refcount bookkeeping, ordinal range of the
max-level atomic, uniqueness of the installation winner, and the lifecycle
facts relating `LOGGER`, the `atexit` registration and the shutdown
routine. -/
structure Inv (c : Config) : Prop where
  refEq : c.g.refcount = (countCounted c : Int)
  maxle : c.g.maxLevel ≤ 5
  handles : ∀ t ∈ c.insts, 2 ≤ t.handle
  winUnique : ∀ j k tj tk, c.insts.get? j = some tj →
    c.insts.get? k = some tk → tj.isWinner = true → tk.isWinner = true →
    j = k
  loggerZero : c.g.logger = UNINITIALIZED →
    (∀ t ∈ c.insts, t.isWinner = false) ∧ c.shut = ShutPC.notStarted ∧
      c.g.atexitReg = false
  regIdone : c.g.atexitReg = true →
    ∃ j tj, c.insts.get? j = some tj ∧ tj.pc = InstPC.idone
  swapInv : pastSwap c → c.g.atexitReg = true ∧ c.g.logger = INITIALIZING
  storedLogger : c.shut = ShutPC.notStarted →
    (∃ j tj, c.insts.get? j = some tj ∧ tj.isStoredOn = true) →
    2 ≤ c.g.logger
  oldValid : ∀ old, (c.shut = ShutPC.swapped old ∨
    c.shut = ShutPC.drained old ∨ c.shut = ShutPC.sdone old) → 2 ≤ old

/-! ## Concrete fixtures used to evaluate the model on actual inputs -/

/-- A state in which installation has already begun (`LOGGER == 1`). -/
def gBusy : GState :=
  { logger := INITIALIZING, refcount := 0, maxLevel := 0, atexitReg := false }

/-- The heap with no logger objects at all (in particular none behind the
sentinel values `0` and `1`). -/
def heapEmpty : RecHeap := fun _ => none

/-- A sample call-site location. -/
def locW : LogLocation := { module_path := "m", file := "f.rs", line := 7 }

/-- A sample factory: sets the ceiling to `Info`, returns handle `2`. -/
def mkLoggerW : GState → GState × Nat :=
  fun g => (MaxLogLevelFilter.set g LogLevelFilter.Info, 2)

/-- A small initial machine configuration: one accessor, one installer,
one setter, shutdown not started. -/
def confW : Config :=
  { g := initialG,
    accs := [{ op := AccOp.enabledOp LogLevel.Error "t", pc := AccPC.ready }],
    insts := [{ fset := some LogLevelFilter.Info, handle := 2,
                pc := InstPC.iready }],
    setters := [{ f := LogLevelFilter.Debug, done := false }],
    shut := ShutPC.notStarted }

/-! # Theorems -/

/-! ## Level model: ordering and conversions -/

/-- **C6.** For all values from `LogLevel` or `LogLevelFilter`, including
cross-type comparison, `a < b` holds iff the shared ordinals satisfy
`ordinal a < ordinal b`, `a == b` iff the ordinals are equal, the two
cross-type comparison directions agree, and in particular
`LogLevelFilter::Off < LogLevel::Error`,
`LogLevel::Debug > LogLevelFilter::Error` and
`LogLevel::Trace == LogLevelFilter::Trace`. -/
theorem claim_C6_ordering :
    (∀ a b : LogLevel,
      (LogLevel.ltb a b = true ↔ a.toUsize < b.toUsize) ∧
      (LogLevel.beq a b = true ↔ a.toUsize = b.toUsize)) ∧
    (∀ a b : LogLevelFilter,
      (LogLevelFilter.ltb a b = true ↔ a.toUsize < b.toUsize) ∧
      (LogLevelFilter.beq a b = true ↔ a.toUsize = b.toUsize)) ∧
    (∀ (a : LogLevel) (b : LogLevelFilter),
      (LogLevel.lt_filter a b = true ↔ a.toUsize < b.toUsize) ∧
      (LogLevel.beq_filter a b = true ↔ a.toUsize = b.toUsize) ∧
      (LogLevelFilter.lt_level b a = true ↔ b.toUsize < a.toUsize) ∧
      (LogLevelFilter.beq_level b a = true ↔ b.toUsize = a.toUsize) ∧
      LogLevel.lt_filter a b = LogLevelFilter.gt_level b a ∧
      LogLevel.gt_filter a b = LogLevelFilter.lt_level b a) ∧
    LogLevelFilter.lt_level LogLevelFilter.Off LogLevel.Error = true ∧
    LogLevel.gt_filter LogLevel.Debug LogLevelFilter.Error = true ∧
    LogLevel.beq_filter LogLevel.Trace LogLevelFilter.Trace = true := by
  decide

/-- **C10.** `to_log_level_filter` never hits its `unwrap` and returns the
same-ordinal filter, the round trip through `to_log_level` restores the
level, and `to_log_level` is `none` exactly on `Off` and otherwise returns
the same-ordinal level. -/
theorem claim_C10_conversions :
    (∀ l : LogLevel,
      (LogLevel.to_log_level_filter l).isSome = true ∧
      (∀ f : LogLevelFilter,
        LogLevel.to_log_level_filter l = some f ↔ f.toUsize = l.toUsize) ∧
      (LogLevel.to_log_level_filter l).bind LogLevelFilter.to_log_level
        = some l) ∧
    (∀ f : LogLevelFilter,
      (LogLevelFilter.to_log_level f = none ↔ f = LogLevelFilter.Off) ∧
      (∀ l : LogLevel,
        LogLevelFilter.to_log_level f = some l ↔
          l.toUsize = f.toUsize)) := by
  decide

/-! ## Parsing (C7) -/

theorem eqIC_trans {a b s : String} (h1 : eq_ignore_ascii_case a s = true)
    (h2 : eq_ignore_ascii_case b s = true) :
    eq_ignore_ascii_case a b = true := by
  simp only [eq_ignore_ascii_case, beq_iff_eq] at h1 h2 ⊢
  rw [h1, h2]

theorem eqIC_not_both (n m s : String)
    (hnm : eq_ignore_ascii_case n m = false) :
    ¬(eq_ignore_ascii_case n s = true ∧ eq_ignore_ascii_case m s = true) :=
  fun hp => by simpa [hnm] using eqIC_trans hp.1 hp.2

/-- Characterization of `FromStr for LogLevel` on arbitrary input. -/
theorem from_str_level_char (s : String) (l : LogLevel) :
    LogLevel.from_str s = Except.ok l ↔
      eq_ignore_ascii_case (LogLevel.fmt_token l) s = true := by
  have e01 := eqIC_not_both "OFF" "ERROR" s (by decide)
  have e02 := eqIC_not_both "OFF" "WARN" s (by decide)
  have e03 := eqIC_not_both "OFF" "INFO" s (by decide)
  have e04 := eqIC_not_both "OFF" "DEBUG" s (by decide)
  have e05 := eqIC_not_both "OFF" "TRACE" s (by decide)
  have e12 := eqIC_not_both "ERROR" "WARN" s (by decide)
  have e13 := eqIC_not_both "ERROR" "INFO" s (by decide)
  have e14 := eqIC_not_both "ERROR" "DEBUG" s (by decide)
  have e15 := eqIC_not_both "ERROR" "TRACE" s (by decide)
  have e23 := eqIC_not_both "WARN" "INFO" s (by decide)
  have e24 := eqIC_not_both "WARN" "DEBUG" s (by decide)
  have e25 := eqIC_not_both "WARN" "TRACE" s (by decide)
  have e34 := eqIC_not_both "INFO" "DEBUG" s (by decide)
  have e35 := eqIC_not_both "INFO" "TRACE" s (by decide)
  have e45 := eqIC_not_both "DEBUG" "TRACE" s (by decide)
  by_cases h0 : eq_ignore_ascii_case "OFF" s = true <;>
    by_cases h1 : eq_ignore_ascii_case "ERROR" s = true <;>
    by_cases h2 : eq_ignore_ascii_case "WARN" s = true <;>
    by_cases h3 : eq_ignore_ascii_case "INFO" s = true <;>
    by_cases h4 : eq_ignore_ascii_case "DEBUG" s = true <;>
    by_cases h5 : eq_ignore_ascii_case "TRACE" s = true <;>
    cases l <;>
    simp_all [LogLevel.from_str, ok_or, position, LOG_LEVEL_NAMES,
      LogLevel.fmt_token, LogLevel.from_usize, LogLevel.toUsize]

/-- Characterization of `FromStr for LogLevelFilter` on arbitrary input. -/
theorem from_str_filter_char (s : String) (f : LogLevelFilter) :
    LogLevelFilter.from_str s = Except.ok f ↔
      eq_ignore_ascii_case (LogLevelFilter.fmt_token f) s = true := by
  have e01 := eqIC_not_both "OFF" "ERROR" s (by decide)
  have e02 := eqIC_not_both "OFF" "WARN" s (by decide)
  have e03 := eqIC_not_both "OFF" "INFO" s (by decide)
  have e04 := eqIC_not_both "OFF" "DEBUG" s (by decide)
  have e05 := eqIC_not_both "OFF" "TRACE" s (by decide)
  have e12 := eqIC_not_both "ERROR" "WARN" s (by decide)
  have e13 := eqIC_not_both "ERROR" "INFO" s (by decide)
  have e14 := eqIC_not_both "ERROR" "DEBUG" s (by decide)
  have e15 := eqIC_not_both "ERROR" "TRACE" s (by decide)
  have e23 := eqIC_not_both "WARN" "INFO" s (by decide)
  have e24 := eqIC_not_both "WARN" "DEBUG" s (by decide)
  have e25 := eqIC_not_both "WARN" "TRACE" s (by decide)
  have e34 := eqIC_not_both "INFO" "DEBUG" s (by decide)
  have e35 := eqIC_not_both "INFO" "TRACE" s (by decide)
  have e45 := eqIC_not_both "DEBUG" "TRACE" s (by decide)
  by_cases h0 : eq_ignore_ascii_case "OFF" s = true <;>
    by_cases h1 : eq_ignore_ascii_case "ERROR" s = true <;>
    by_cases h2 : eq_ignore_ascii_case "WARN" s = true <;>
    by_cases h3 : eq_ignore_ascii_case "INFO" s = true <;>
    by_cases h4 : eq_ignore_ascii_case "DEBUG" s = true <;>
    by_cases h5 : eq_ignore_ascii_case "TRACE" s = true <;>
    cases f <;>
    simp_all [LogLevelFilter.from_str, ok_or, position, LOG_LEVEL_NAMES,
      LogLevelFilter.fmt_token, LogLevelFilter.from_usize,
      LogLevelFilter.toUsize]

/-- **C7.** In the default (case-insensitive) build, parsing succeeds
exactly on case-variants of the six names — the result being the value of
matching ordinal, via its `Display` token — except that every spelling of
"off" is rejected for `LogLevel`; any string matching none of the names
fails; and parsing the token produced by `Display` restores the value. -/
theorem claim_C7_parsing (s : String) :
    (∀ l : LogLevel,
      LogLevel.from_str s = Except.ok l ↔
        eq_ignore_ascii_case (LogLevel.fmt_token l) s = true) ∧
    (∀ f : LogLevelFilter,
      LogLevelFilter.from_str s = Except.ok f ↔
        eq_ignore_ascii_case (LogLevelFilter.fmt_token f) s = true) ∧
    (eq_ignore_ascii_case "OFF" s = true →
      LogLevel.from_str s = Except.error ()) ∧
    ((∀ n ∈ LOG_LEVEL_NAMES, eq_ignore_ascii_case n s = false) →
      LogLevel.from_str s = Except.error () ∧
      LogLevelFilter.from_str s = Except.error ()) ∧
    (∀ l : LogLevel,
      LogLevel.from_str (LogLevel.fmt_token l) = Except.ok l) ∧
    (∀ f : LogLevelFilter,
      LogLevelFilter.from_str (LogLevelFilter.fmt_token f) = Except.ok f) := by
  refine ⟨from_str_level_char s, from_str_filter_char s, ?_, ?_, ?_, ?_⟩
  · intro h0
    have e01 := eqIC_not_both "OFF" "ERROR" s (by decide)
    have e02 := eqIC_not_both "OFF" "WARN" s (by decide)
    have e03 := eqIC_not_both "OFF" "INFO" s (by decide)
    have e04 := eqIC_not_both "OFF" "DEBUG" s (by decide)
    have e05 := eqIC_not_both "OFF" "TRACE" s (by decide)
    simp_all [LogLevel.from_str, ok_or, position, LOG_LEVEL_NAMES]
  · intro hall
    have h0 := hall "OFF" (by decide)
    have h1 := hall "ERROR" (by decide)
    have h2 := hall "WARN" (by decide)
    have h3 := hall "INFO" (by decide)
    have h4 := hall "DEBUG" (by decide)
    have h5 := hall "TRACE" (by decide)
    constructor <;>
      simp_all [LogLevel.from_str, LogLevelFilter.from_str, ok_or, position,
        LOG_LEVEL_NAMES]
  · intro l
    exact (from_str_level_char (LogLevel.fmt_token l) l).mpr
      (by cases l <;> decide)
  · intro f
    exact (from_str_filter_char (LogLevelFilter.fmt_token f) f).mpr
      (by cases f <;> decide)

/-- Witness for C7: concrete evaluations — "Off" parses as a filter but is
rejected as a level, "WARN" and "warn" parse to `Warn`, junk fails. -/
theorem claim_C7_parsing_witness :
    LogLevel.from_str "Off" = Except.error () ∧
    LogLevelFilter.from_str "Off" = Except.ok LogLevelFilter.Off ∧
    LogLevel.from_str "warn" = Except.ok LogLevel.Warn ∧
    LogLevel.from_str "WARN" = Except.ok LogLevel.Warn ∧
    LogLevel.from_str "asdf" = Except.error () := by
  refine ⟨(claim_C7_parsing "Off").2.2.1 (by decide), ?_, ?_, ?_, ?_⟩
  · exact (from_str_filter_char "Off" LogLevelFilter.Off).mpr (by decide)
  · exact (claim_C7_parsing "warn").1 LogLevel.Warn |>.mpr (by decide)
  · exact (claim_C7_parsing "WARN").1 LogLevel.Warn |>.mpr (by decide)
  · exact ((claim_C7_parsing "asdf").2.2.2.1 (by decide)).1

/-! ## Installation error path (C1) and the max-level token (C8) -/

/-- **C1.** Whenever the slot is not `Uninitialized`, `set_logger` — in
both builds — fails with the "already initialized" error, does not invoke
the factory closure, and leaves the whole state (slot and max-level
filter) unchanged; moreover `SetLoggerError` carries no information, so
this is the one and only error value of the facade. -/
theorem claim_C1_set_logger_already_initialized
    (g : GState) (make_logger : GState → GState × Nat)
    (h : g.logger ≠ UNINITIALIZED) :
    set_logger make_logger g = (g, Except.error {}, false) ∧
    set_logger_fs make_logger g = (g, Except.error {}, false) ∧
    (∀ e e' : SetLoggerError, e = e') := by
  refine ⟨?_, ?_, fun e e' => rfl⟩ <;> simp [set_logger, set_logger_fs, h]

/-- Witness for C1: a second `set_logger` call against a busy slot fails
identically in both builds. -/
theorem claim_C1_set_logger_already_initialized_witness :
    gBusy.logger ≠ UNINITIALIZED ∧
    set_logger mkLoggerW gBusy = (gBusy, Except.error {}, false) ∧
    set_logger_fs mkLoggerW gBusy = (gBusy, Except.error {}, false) :=
  ⟨by decide,
    (claim_C1_set_logger_already_initialized gBusy mkLoggerW (by decide)).1,
    (claim_C1_set_logger_already_initialized gBusy mkLoggerW (by decide)).2.1⟩

/-- In the **default** build the claim of C2 does hold: with the slot on a
sentinel value, `__enabled` answers `false`, `__log` does nothing, the
state is fully restored and no recorder is touched. -/
theorem preinstall_noop_default
    (heap : RecHeap) (g : GState) (level : LogLevel) (target : String)
    (loc : LogLocation) (args : String)
    (h : g.logger = UNINITIALIZED ∨ g.logger = INITIALIZING) :
    __enabled heap g level target = (g, some false, []) ∧
    __log heap g level target loc args = (g, []) := by
  have hg : logger g = (g, none) := by
    simp only [logger, h, if_pos]
    have h2 : g.refcount + 1 - 1 = g.refcount := by omega
    rw [h2]
  constructor <;> simp [__enabled, __log, hg]

/-- Closed instance of `preinstall_noop_default` at concrete inputs. -/
theorem preinstall_noop_default_witness :
    (initialG.logger = UNINITIALIZED ∨ initialG.logger = INITIALIZING) ∧
    __enabled heapEmpty initialG LogLevel.Error "t"
      = (initialG, some false, []) ∧
    __log heapEmpty initialG LogLevel.Error "t" locW "hello"
      = (initialG, []) :=
  ⟨by simp [initialG, UNINITIALIZED],
    (preinstall_noop_default heapEmpty initialG LogLevel.Error "t" locW
      "hello" (by simp [initialG, UNINITIALIZED])).1,
    (preinstall_noop_default heapEmpty initialG LogLevel.Error "t" locW
      "hello" (by simp [initialG, UNINITIALIZED])).2⟩

/-- **C2** (divergence, `freestanding` build).  With the slot still
`Uninitialized` (`LOGGER == 0`), `logger()` of the freestanding build
unconditionally wraps the raw slot value in a guard, so `__enabled` and
`__log` dereference the sentinel `0` — touching (nonexistent) recorder
handle `0` with no defined boolean answer — instead of returning `false`
and doing nothing, contradicting the claim and the crate's own
documentation that pre-installation events are ignored. -/
theorem claim_C2_preinstall_freestanding_divergence :
    logger_fs initialG = some 0 ∧
    __enabled_fs heapEmpty initialG LogLevel.Error "t"
      = (none, [REvent.enabledCall 0 LogLevel.Error "t"]) ∧
    __log_fs heapEmpty initialG LogLevel.Error "t" locW "hello"
      = [REvent.logCall 0 LogLevel.Error "t" locW "hello"] := by
  refine ⟨rfl, rfl, rfl⟩

/-- **C8.** After `set(f)` on the token, `get()` (and `max_log_level()`)
reads back exactly `f`, and `set` does not touch the slot, the refcount or
the `atexit` registration. -/
theorem claim_C8_max_level_roundtrip (g : GState) (f : LogLevelFilter) :
    MaxLogLevelFilter.get (MaxLogLevelFilter.set g f) = some f ∧
    max_log_level (MaxLogLevelFilter.set g f) = some f ∧
    (MaxLogLevelFilter.set g f).logger = g.logger ∧
    (MaxLogLevelFilter.set g f).refcount = g.refcount ∧
    (MaxLogLevelFilter.set g f).atexitReg = g.atexitReg := by
  refine ⟨?_, ?_, rfl, rfl, rfl⟩ <;> cases f <;> rfl

/-! ## List bookkeeping lemmas for the machine proofs -/

theorem lt_of_get?_some {l : List α} {i : Nat} {t : α}
    (h : l.get? i = some t) : i < l.length := by
  by_contra hn
  push_neg at hn
  rw [List.get?_eq_none.mpr hn] at h
  exact absurd h (by simp)

theorem countP_set_balance (p : α → Bool) (l : List α) :
    ∀ (i : Nat) (t t' : α), l.get? i = some t →
      (l.set i t').countP p + (if p t then 1 else 0)
        = l.countP p + (if p t' then 1 else 0) := by
  induction l with
  | nil => intro i t t' h; simp at h
  | cons a as ih =>
    intro i t t' h
    cases i with
    | zero =>
      simp only [List.get?] at h
      cases h
      simp only [List.set, List.countP_cons]
      omega
    | succ n =>
      simp only [List.get?] at h
      simp only [List.set, List.countP_cons]
      have := ih n t t' h
      omega

theorem countP_le_one_of_unique (p : α → Bool) (l : List α)
    (h : ∀ j k tj tk, l.get? j = some tj → l.get? k = some tk →
      p tj = true → p tk = true → j = k) :
    l.countP p ≤ 1 := by
  induction l with
  | nil => simp
  | cons a as ih =>
    rw [List.countP_cons]
    by_cases hpa : p a = true
    · have h0 : as.countP p = 0 := by
        rw [List.countP_eq_zero]
        intro b hb hpb
        obtain ⟨n, hn⟩ := List.get?_of_mem hb
        have : n + 1 = 0 :=
          h (n + 1) 0 b a (by simpa using hn) (by simp) (by simpa using hpb)
            hpa
        omega
      simp [h0, hpa]
    · have hall : ∀ j k tj tk, as.get? j = some tj → as.get? k = some tk →
          p tj = true → p tk = true → j = k := by
        intro j k tj tk hj hk hpj hpk
        have := h (j + 1) (k + 1) tj tk (by simpa using hj)
          (by simpa using hk) hpj hpk
        omega
      have := ih hall
      simp only [if_neg hpa]
      omega

theorem at_most_one_set (p : α → Bool) (l : List α) (i : Nat) (t t' : α)
    (hget : l.get? i = some t) (himp : p t' = true → p t = true)
    (h : ∀ j k tj tk, l.get? j = some tj → l.get? k = some tk →
      p tj = true → p tk = true → j = k) :
    ∀ j k tj tk, (l.set i t').get? j = some tj →
      (l.set i t').get? k = some tk → p tj = true → p tk = true → j = k := by
  intro j k tj tk hj hk hpj hpk
  have hlen := lt_of_get?_some hget
  by_cases hji : j = i
  · by_cases hki : k = i
    · rw [hji, hki]
    · rw [hji] at hj
      rw [List.get?_set_eq_of_lt t' hlen] at hj
      cases hj
      rw [List.get?_set_ne t' l (fun hc => hki hc.symm)] at hk
      rw [hji]
      exact h i k t tk hget hk (himp hpj) hpk
  · by_cases hki : k = i
    · rw [hki] at hk
      rw [List.get?_set_eq_of_lt t' hlen] at hk
      cases hk
      rw [List.get?_set_ne t' l (fun hc => hji hc.symm)] at hj
      rw [hki]
      exact h j i tj t hj hget hpj (himp hpk)
    · rw [List.get?_set_ne t' l (fun hc => hji hc.symm)] at hj
      rw [List.get?_set_ne t' l (fun hc => hki hc.symm)] at hk
      exact h j k tj tk hj hk hpj hpk

theorem at_most_one_of_all_false (p : α → Bool) (l : List α) (i : Nat)
    (t' : α) (hnone : ∀ u ∈ l, p u = false) :
    ∀ j k tj tk, (l.set i t').get? j = some tj →
      (l.set i t').get? k = some tk → p tj = true → p tk = true → j = k := by
  intro j k tj tk hj hk hpj hpk
  by_cases hji : j = i
  · by_cases hki : k = i
    · rw [hji, hki]
    · rw [List.get?_set_ne t' l (fun hc => hki hc.symm)] at hk
      have := hnone tk (List.get?_mem hk)
      rw [this] at hpk
      cases hpk
  · rw [List.get?_set_ne t' l (fun hc => hji hc.symm)] at hj
    have := hnone tj (List.get?_mem hj)
    rw [this] at hpj
    cases hpj

/-! ## Machine invariant -/

theorem filter_toUsize_le (f : LogLevelFilter) : f.toUsize ≤ 5 := by
  cases f <;> decide

theorem storedOn_winner {t : InstThread} (h : t.isStoredOn = true) :
    t.isWinner = true := by
  cases hp : t.pc <;>
    simp [InstThread.isStoredOn, InstThread.isWinner, hp] at h ⊢

theorem madeOn_winner {t : InstThread} (h : t.isMadeOn = true) :
    t.isWinner = true := by
  cases hp : t.pc <;>
    simp [InstThread.isMadeOn, InstThread.isWinner, hp] at h ⊢

theorem inv_init {c : Config} (h : InitConf c) : Inv c := by
  obtain ⟨hg, _hacc, hinst, _hset, hshut⟩ := h
  have hnowin : ∀ t ∈ c.insts, t.isWinner = false := by
    intro t ht
    simp [InstThread.isWinner, (hinst t ht).1]
  refine ⟨?_, ?_, ?_, ?_, ?_, ?_, ?_, ?_, ?_⟩
  · have h0 : countCounted c = 0 := by
      rw [countCounted, List.countP_eq_zero]
      intro t ht
      simp [AccThread.isCounted, _hacc t ht]
    rw [h0, hg]
    rfl
  · rw [hg]; exact Nat.zero_le 5
  · intro t ht; exact (hinst t ht).2
  · intro j k tj tk hj hk hpj _hpk
    have := hnowin tj (List.get?_mem hj)
    rw [this] at hpj
    cases hpj
  · intro _
    exact ⟨hnowin, hshut, by rw [hg]; rfl⟩
  · intro hreg
    rw [hg] at hreg
    cases hreg
  · intro hps
    rw [pastSwap, hshut] at hps
    cases hps rfl
  · intro _ hex
    obtain ⟨j, tj, hj, hpj⟩ := hex
    have := storedOn_winner hpj
    rw [hnowin tj (List.get?_mem hj)] at this
    cases this
  · intro old hold
    rw [hshut] at hold
    rcases hold with h | h | h <;> cases h

theorem inv_step {c : Config} {l : Label} {c' : Config}
    (hInv : Inv c) (hs : StepM c l c') : Inv c' := by
  obtain ⟨A, B, C, D, E, F, G, H, I⟩ := hInv
  cases hs with
  | accAdd i t hget hpc =>
    refine ⟨?_, B, C, D, E, F, G, H, I⟩
    have hb := countP_set_balance AccThread.isCounted c.accs i t
      { t with pc := AccPC.counted } hget
    simp [AccThread.isCounted, hpc] at hb
    simp only [countCounted] at A ⊢
    omega
  | accLoad i t hget hpc =>
    refine ⟨?_, B, C, D, E, F, G, H, I⟩
    have hb := countP_set_balance AccThread.isCounted c.accs i t
      { t with pc := AccPC.checked c.g.logger } hget
    simp [AccThread.isCounted, hpc] at hb
    simp only [countCounted] at A ⊢
    omega
  | accMiss i t v hget hpc hv =>
    refine ⟨?_, B, C, D, E, F, G, H, I⟩
    have hb := countP_set_balance AccThread.isCounted c.accs i t
      { t with pc := AccPC.finished none } hget
    simp [AccThread.isCounted, hpc] at hb
    simp only [countCounted] at A ⊢
    omega
  | accHit i t v hget hpc hv0 hv1 =>
    refine ⟨?_, B, C, D, E, F, G, H, I⟩
    have hb := countP_set_balance AccThread.isCounted c.accs i t
      { t with pc := AccPC.usingRec v } hget
    simp [AccThread.isCounted, hpc] at hb
    simp only [countCounted] at A ⊢
    omega
  | accDrop i t v hget hpc =>
    refine ⟨?_, B, C, D, E, F, G, H, I⟩
    have hb := countP_set_balance AccThread.isCounted c.accs i t
      { t with pc := AccPC.finished (some v) } hget
    simp [AccThread.isCounted, hpc] at hb
    simp only [countCounted] at A ⊢
    omega
  | instCasWin j t hget hpc hl =>
    have hnowin := (E hl).1
    refine ⟨A, B, ?_, ?_, ?_, ?_, ?_, ?_, ?_⟩
    · intro u hu
      rcases List.mem_or_eq_of_mem_set hu with h | h
      · exact C u h
      · rw [h]; exact C t (List.get?_mem hget)
    · exact at_most_one_of_all_false InstThread.isWinner c.insts j
        { t with pc := InstPC.won } hnowin
    · intro hcontra
      rw [INITIALIZING, UNINITIALIZED] at hcontra
      cases hcontra
    · intro hreg
      rw [(E hl).2.2] at hreg
      cases hreg
    · intro hps
      rw [pastSwap, (E hl).2.1] at hps
      cases hps rfl
    · intro _ hex
      obtain ⟨j', tj', hj', hpj'⟩ := hex
      exfalso
      by_cases hji : j' = j
      · rw [hji, List.get?_set_eq_of_lt _ (lt_of_get?_some hget)] at hj'
        cases hj'
        simp [InstThread.isStoredOn] at hpj'
      · rw [List.get?_set_ne _ _ (fun hc => hji hc.symm)] at hj'
        have := storedOn_winner hpj'
        rw [hnowin tj' (List.get?_mem hj')] at this
        cases this
    · intro old hold
      exact I old hold
  | instCasFail j t hget hpc hl =>
    refine ⟨A, B, ?_, ?_, ?_, ?_, G, ?_, I⟩
    · intro u hu
      rcases List.mem_or_eq_of_mem_set hu with h | h
      · exact C u h
      · rw [h]; exact C t (List.get?_mem hget)
    · refine at_most_one_set InstThread.isWinner c.insts j t
        { t with pc := InstPC.ifailed } hget ?_ D
      intro hcontra
      simp [InstThread.isWinner] at hcontra
    · intro hl0
      obtain ⟨hnowin, hns, hreg⟩ := E hl0
      refine ⟨?_, hns, hreg⟩
      intro u hu
      rcases List.mem_or_eq_of_mem_set hu with h | h
      · exact hnowin u h
      · rw [h]; simp [InstThread.isWinner]
    · intro hreg
      obtain ⟨j', tj', hj', hpj'⟩ := F hreg
      have hne : j' ≠ j := by
        intro hcontra
        rw [hcontra, hget] at hj'
        cases hj'
        rw [hpc] at hpj'
        cases hpj'
      exact ⟨j', tj', by
        rw [List.get?_set_ne _ _ (fun hc => hne hc.symm)]; exact hj', hpj'⟩
    · intro hns hex
      obtain ⟨j', tj', hj', hpj'⟩ := hex
      by_cases hji : j' = j
      · rw [hji, List.get?_set_eq_of_lt _ (lt_of_get?_some hget)] at hj'
        cases hj'
        simp [InstThread.isStoredOn] at hpj'
      · rw [List.get?_set_ne _ _ (fun hc => hji hc.symm)] at hj'
        exact H hns ⟨j', tj', hj', hpj'⟩
  | instFactory j t hget hpc =>
    have hwin : t.isWinner = true := by simp [InstThread.isWinner, hpc]
    have hglog : (match t.fset with
        | some f => MaxLogLevelFilter.set c.g f
        | none => c.g).logger = c.g.logger := by
      cases t.fset <;> rfl
    have hgref : (match t.fset with
        | some f => MaxLogLevelFilter.set c.g f
        | none => c.g).refcount = c.g.refcount := by
      cases t.fset <;> rfl
    have hgreg : (match t.fset with
        | some f => MaxLogLevelFilter.set c.g f
        | none => c.g).atexitReg = c.g.atexitReg := by
      cases t.fset <;> rfl
    refine ⟨?_, ?_, ?_, ?_, ?_, ?_, ?_, ?_, I⟩
    · show (match t.fset with
        | some f => MaxLogLevelFilter.set c.g f
        | none => c.g).refcount = _
      rw [hgref]
      exact A
    · show (match t.fset with
        | some f => MaxLogLevelFilter.set c.g f
        | none => c.g).maxLevel ≤ 5
      cases t.fset with
      | none => exact B
      | some f => exact filter_toUsize_le f
    · intro u hu
      rcases List.mem_or_eq_of_mem_set hu with h | h
      · exact C u h
      · rw [h]; exact C t (List.get?_mem hget)
    · refine at_most_one_set InstThread.isWinner c.insts j t
        { t with pc := InstPC.made } hget ?_ D
      intro _; exact hwin
    · intro hl0
      rw [hglog] at hl0
      exfalso
      have := (E hl0).1 t (List.get?_mem hget)
      rw [this] at hwin
      cases hwin
    · intro hreg
      rw [hgreg] at hreg
      obtain ⟨j', tj', hj', hpj'⟩ := F hreg
      have hne : j' ≠ j := by
        intro hcontra
        rw [hcontra, hget] at hj'
        cases hj'
        rw [hpc] at hpj'
        cases hpj'
      exact ⟨j', tj', by
        rw [List.get?_set_ne _ _ (fun hc => hne hc.symm)]; exact hj', hpj'⟩
    · intro hps
      have hG := G hps
      exact ⟨by rw [hgreg]; exact hG.1, by rw [hglog]; exact hG.2⟩
    · intro hns hex
      rw [hglog]
      obtain ⟨j', tj', hj', hpj'⟩ := hex
      by_cases hji : j' = j
      · rw [hji, List.get?_set_eq_of_lt _ (lt_of_get?_some hget)] at hj'
        cases hj'
        simp [InstThread.isStoredOn] at hpj'
      · rw [List.get?_set_ne _ _ (fun hc => hji hc.symm)] at hj'
        exact H hns ⟨j', tj', hj', hpj'⟩
  | instStore j t hget hpc =>
    have hwin : t.isWinner = true := by simp [InstThread.isWinner, hpc]
    have hhandle : 2 ≤ t.handle := C t (List.get?_mem hget)
    refine ⟨A, B, ?_, ?_, ?_, ?_, ?_, ?_, I⟩
    · intro u hu
      rcases List.mem_or_eq_of_mem_set hu with h | h
      · exact C u h
      · rw [h]; exact hhandle
    · refine at_most_one_set InstThread.isWinner c.insts j t
        { t with pc := InstPC.stored } hget ?_ D
      intro _; exact hwin
    · intro hl0
      exfalso
      have h0 : t.handle = 0 := hl0
      omega
    · intro hreg
      obtain ⟨j', tj', hj', hpj'⟩ := F hreg
      have hne : j' ≠ j := by
        intro hcontra
        rw [hcontra, hget] at hj'
        cases hj'
        rw [hpc] at hpj'
        cases hpj'
      exact ⟨j', tj', by
        rw [List.get?_set_ne _ _ (fun hc => hne hc.symm)]; exact hj', hpj'⟩
    · intro hps
      exfalso
      obtain ⟨j', tj', hj', hpj'⟩ := F (G hps).1
      have hji : j = j' := D j j' t tj' hget hj' hwin
        (by simp [InstThread.isWinner, hpj'])
      rw [← hji, hget] at hj'
      cases hj'
      rw [hpc] at hpj'
      cases hpj'
    · intro _ _
      exact hhandle
  | instAtexit j t hget hpc =>
    have hwin : t.isWinner = true := by simp [InstThread.isWinner, hpc]
    refine ⟨A, B, ?_, ?_, ?_, ?_, ?_, ?_, I⟩
    · intro u hu
      rcases List.mem_or_eq_of_mem_set hu with h | h
      · exact C u h
      · rw [h]; exact C t (List.get?_mem hget)
    · refine at_most_one_set InstThread.isWinner c.insts j t
        { t with pc := InstPC.idone } hget ?_ D
      intro _; exact hwin
    · intro hl0
      exfalso
      have := (E hl0).1 t (List.get?_mem hget)
      rw [this] at hwin
      cases hwin
    · intro _
      exact ⟨j, { t with pc := InstPC.idone },
        List.get?_set_eq_of_lt _ (lt_of_get?_some hget), rfl⟩
    · intro hps
      exact ⟨rfl, (G hps).2⟩
    · intro hns _
      exact H hns ⟨j, t, hget, by simp [InstThread.isStoredOn, hpc]⟩
  | shutSwap hsns hreg =>
    have h2 : 2 ≤ c.g.logger := by
      obtain ⟨j, tj, hj, hpj⟩ := F hreg
      exact H hsns ⟨j, tj, hj, by simp [InstThread.isStoredOn, hpj]⟩
    refine ⟨A, B, C, D, ?_, F, ?_, ?_, ?_⟩
    · intro hcontra
      rw [INITIALIZING, UNINITIALIZED] at hcontra
      cases hcontra
    · intro _
      exact ⟨hreg, rfl⟩
    · intro hns
      cases hns
    · intro old hold
      rcases hold with h | h | h
      · cases h
        exact h2
      · cases h
      · cases h
  | shutSpin old hsns hr =>
    exact ⟨A, B, C, D, E, F, G, H, I⟩
  | shutZero old hsns hr =>
    refine ⟨A, B, C, D, ?_, F, ?_, ?_, ?_⟩
    · intro hl0
      rw [(E hl0).2.1] at hsns
      cases hsns
    · intro _
      exact G (by rw [pastSwap, hsns]; intro hc; cases hc)
    · intro hns
      cases hns
    · intro o ho
      rcases ho with h | h | h
      · cases h
      · cases h
        exact I old (Or.inl hsns)
      · cases h
  | shutRelease old hsns =>
    refine ⟨A, B, C, D, ?_, F, ?_, ?_, ?_⟩
    · intro hl0
      rw [(E hl0).2.1] at hsns
      cases hsns
    · intro _
      exact G (by rw [pastSwap, hsns]; intro hc; cases hc)
    · intro hns
      cases hns
    · intro o ho
      rcases ho with h | h | h
      · cases h
      · cases h
      · cases h
        exact I old (Or.inr (Or.inl hsns))
  | setterStep k t hget hd =>
    refine ⟨A, ?_, C, D, E, F, G, H, I⟩
    exact filter_toUsize_le t.f

theorem inv_exec {c : Config} {ls : List Label} {c' : Config}
    (hex : ExecM c ls c') : Inv c → Inv c' := by
  induction hex with
  | refl c => exact id
  | cons c l c1 ls c2 h1 _h2 ih => exact fun h => ih (inv_step h h1)

/-! ## Counting installation, store and release events -/

theorem relMeasure_step {c : Config} {l : Label} {c' : Config}
    (hs : StepM c l c') :
    relMeasure c' = relMeasure c + (if l.isReleaseL then 1 else 0) := by
  cases hs <;> simp_all [relMeasure, Label.isReleaseL]

theorem countP_set_same (p : α → Bool) (l : List α) (i : Nat) (t t' : α)
    (hget : l.get? i = some t) (h1 : p t = p t') :
    (l.set i t').countP p = l.countP p := by
  have hb := countP_set_balance p l i t t' hget
  rw [h1] at hb
  omega

theorem countP_set_up (p : α → Bool) (l : List α) (i : Nat) (t t' : α)
    (hget : l.get? i = some t) (h1 : p t = false) (h2 : p t' = true) :
    (l.set i t').countP p = l.countP p + 1 := by
  have hb := countP_set_balance p l i t t' hget
  rw [h1, h2] at hb
  simp at hb
  omega

theorem facMeasure_step {c : Config} {l : Label} {c' : Config}
    (hs : StepM c l c') :
    facMeasure c' = facMeasure c + (if l.isFactoryL then 1 else 0) := by
  cases hs with
  | instCasWin j t hget hpc hl =>
    exact countP_set_same InstThread.isMadeOn c.insts j t _ hget
      (by simp [InstThread.isMadeOn, hpc])
  | instCasFail j t hget hpc hl =>
    exact countP_set_same InstThread.isMadeOn c.insts j t _ hget
      (by simp [InstThread.isMadeOn, hpc])
  | instFactory j t hget hpc =>
    exact countP_set_up InstThread.isMadeOn c.insts j t _ hget
      (by simp [InstThread.isMadeOn, hpc]) rfl
  | instStore j t hget hpc =>
    exact countP_set_same InstThread.isMadeOn c.insts j t _ hget
      (by simp [InstThread.isMadeOn, hpc])
  | instAtexit j t hget hpc =>
    exact countP_set_same InstThread.isMadeOn c.insts j t _ hget
      (by simp [InstThread.isMadeOn, hpc])
  | _ => rfl

theorem storeMeasure_step {c : Config} {l : Label} {c' : Config}
    (hs : StepM c l c') :
    storeMeasure c' = storeMeasure c + (if l.isStoreL then 1 else 0) := by
  cases hs with
  | instCasWin j t hget hpc hl =>
    exact countP_set_same InstThread.isStoredOn c.insts j t _ hget
      (by simp [InstThread.isStoredOn, hpc])
  | instCasFail j t hget hpc hl =>
    exact countP_set_same InstThread.isStoredOn c.insts j t _ hget
      (by simp [InstThread.isStoredOn, hpc])
  | instFactory j t hget hpc =>
    exact countP_set_same InstThread.isStoredOn c.insts j t _ hget
      (by simp [InstThread.isStoredOn, hpc])
  | instStore j t hget hpc =>
    exact countP_set_up InstThread.isStoredOn c.insts j t _ hget
      (by simp [InstThread.isStoredOn, hpc]) rfl
  | instAtexit j t hget hpc =>
    exact countP_set_same InstThread.isStoredOn c.insts j t _ hget
      (by simp [InstThread.isStoredOn, hpc])
  | _ => rfl

theorem maxLevel_no_write_step {c : Config} {l : Label} {c' : Config}
    (hs : StepM c l c') (hl : l.isMaxWriteL = false) :
    c'.g.maxLevel = c.g.maxLevel := by
  cases hs <;> simp_all [Label.isMaxWriteL, MaxLogLevelFilter.set]

theorem exec_measure_count (M : Config → Nat) (L : Label → Bool)
    (hM : ∀ (a : Config) (lb : Label) (b : Config), StepM a lb b →
      M b = M a + (if L lb then 1 else 0)) :
    ∀ {c : Config} {ls : List Label} {c' : Config}, ExecM c ls c' →
      M c' = M c + ls.countP L := by
  intro c ls c' hex
  induction hex with
  | refl c => simp
  | cons c l c1 ls c2 h1 _h2 ih =>
    have h := hM c l c1 h1
    rw [List.countP_cons]
    omega

theorem exec_maxLevel_const {c : Config} {ls : List Label} {c' : Config}
    (hex : ExecM c ls c') :
    (∀ lb ∈ ls, lb.isMaxWriteL = false) → c'.g.maxLevel = c.g.maxLevel := by
  induction hex with
  | refl c => intro _; rfl
  | cons c l c1 ls c2 h1 _h2 ih =>
    intro hl
    have h := maxLevel_no_write_step h1 (hl l (by simp))
    have h2 := ih (fun lb hm => hl lb (by simp [hm]))
    rw [h2, h]

theorem facMeasure_le_one {c : Config} (hI : Inv c) : facMeasure c ≤ 1 :=
  countP_le_one_of_unique _ _ (fun j k tj tk hj hk hpj hpk =>
    hI.winUnique j k tj tk hj hk (madeOn_winner hpj) (madeOn_winner hpk))

theorem storeMeasure_le_one {c : Config} (hI : Inv c) :
    storeMeasure c ≤ 1 :=
  countP_le_one_of_unique _ _ (fun j k tj tk hj hk hpj hpk =>
    hI.winUnique j k tj tk hj hk (storedOn_winner hpj)
      (storedOn_winner hpk))

theorem relMeasure_le_one (c : Config) : relMeasure c ≤ 1 := by
  rcases hc : c.shut <;> simp [relMeasure, hc]

theorem initconf_measures {c : Config} (h : InitConf c) :
    facMeasure c = 0 ∧ storeMeasure c = 0 ∧ relMeasure c = 0 := by
  obtain ⟨_hg, _hacc, hinst, _hset, hshut⟩ := h
  refine ⟨?_, ?_, ?_⟩
  · rw [facMeasure, List.countP_eq_zero]
    intro t ht; simp [InstThread.isMadeOn, (hinst t ht).1]
  · rw [storeMeasure, List.countP_eq_zero]
    intro t ht; simp [InstThread.isStoredOn, (hinst t ht).1]
  · simp [relMeasure, hshut]

/-! ## Behaviour after the shutdown swap -/

theorem step_after_swap {c : Config} {l : Label} {c' : Config}
    (hI : Inv c) (hps : pastSwap c) (hs : StepM c l c') :
    pastSwap c' ∧ c'.g.logger = INITIALIZING ∧ l.isStoreL = false ∧
    (∀ i t, c.accs.get? i = some t → SafeAccPC t.pc →
      ∃ t', c'.accs.get? i = some t' ∧ SafeAccPC t'.pc) ∧
    (∀ i v, (∃ t, c.accs.get? i = some t ∧ SafeAccPC t.pc) →
      l ≠ Label.recCall i v) := by
  have hreg := (hI.swapInv hps).1
  have hlog := (hI.swapInv hps).2
  cases hs with
  | accAdd i t hget hpc =>
    refine ⟨hps, hlog, rfl, ?_, ?_⟩
    · intro i' t' hget' hsafe'
      by_cases hii : i' = i
      · rw [hii, hget] at hget'
        cases hget'
        exact ⟨{ t with pc := AccPC.counted },
          by rw [hii]; exact List.get?_set_eq_of_lt _ (lt_of_get?_some hget),
          Or.inr (Or.inl rfl)⟩
      · exact ⟨t', by
          rw [List.get?_set_ne _ _ (fun hc => hii hc.symm)]; exact hget',
          hsafe'⟩
    · intro i' v' _ hc; cases hc
  | accLoad i t hget hpc =>
    refine ⟨hps, hlog, rfl, ?_, ?_⟩
    · intro i' t' hget' hsafe'
      by_cases hii : i' = i
      · rw [hii, hget] at hget'
        cases hget'
        refine ⟨{ t with pc := AccPC.checked c.g.logger },
          by rw [hii]; exact List.get?_set_eq_of_lt _ (lt_of_get?_some hget),
          ?_⟩
        rw [hlog]
        exact Or.inr (Or.inr (Or.inl rfl))
      · exact ⟨t', by
          rw [List.get?_set_ne _ _ (fun hc => hii hc.symm)]; exact hget',
          hsafe'⟩
    · intro i' v' _ hc; cases hc
  | accMiss i t v hget hpc hv =>
    refine ⟨hps, hlog, rfl, ?_, ?_⟩
    · intro i' t' hget' hsafe'
      by_cases hii : i' = i
      · rw [hii, hget] at hget'
        cases hget'
        exact ⟨{ t with pc := AccPC.finished none },
          by rw [hii]; exact List.get?_set_eq_of_lt _ (lt_of_get?_some hget),
          Or.inr (Or.inr (Or.inr rfl))⟩
      · exact ⟨t', by
          rw [List.get?_set_ne _ _ (fun hc => hii hc.symm)]; exact hget',
          hsafe'⟩
    · intro i' v' _ hc; cases hc
  | accHit i t v hget hpc hv0 hv1 =>
    have hnotsafe : ¬SafeAccPC t.pc := by
      intro hsafe
      rcases hsafe with h | h | h | h <;> rw [hpc] at h
      · cases h
      · cases h
      · cases h
        exact hv1 rfl
      · cases h
    refine ⟨hps, hlog, rfl, ?_, ?_⟩
    · intro i' t' hget' hsafe'
      by_cases hii : i' = i
      · rw [hii, hget] at hget'
        cases hget'
        exact absurd hsafe' hnotsafe
      · exact ⟨t', by
          rw [List.get?_set_ne _ _ (fun hc => hii hc.symm)]; exact hget',
          hsafe'⟩
    · intro i' v' hex hc
      cases hc
      obtain ⟨t', hget', hsafe'⟩ := hex
      rw [hget] at hget'
      cases hget'
      exact hnotsafe hsafe'
  | accDrop i t v hget hpc =>
    have hnotsafe : ¬SafeAccPC t.pc := by
      intro hsafe
      rcases hsafe with h | h | h | h <;> rw [hpc] at h <;> cases h
    refine ⟨hps, hlog, rfl, ?_, ?_⟩
    · intro i' t' hget' hsafe'
      by_cases hii : i' = i
      · rw [hii, hget] at hget'
        cases hget'
        exact absurd hsafe' hnotsafe
      · exact ⟨t', by
          rw [List.get?_set_ne _ _ (fun hc => hii hc.symm)]; exact hget',
          hsafe'⟩
    · intro i' v' _ hc; cases hc
  | instCasWin j t hget hpc hl =>
    exfalso
    rw [hl, UNINITIALIZED, INITIALIZING] at hlog
    cases hlog
  | instCasFail j t hget hpc hl =>
    exact ⟨hps, hlog, rfl, fun i t' h hsafe => ⟨t', h, hsafe⟩,
      fun i v _ hc => by cases hc⟩
  | instFactory j t hget hpc =>
    have hglog : (match t.fset with
        | some f => MaxLogLevelFilter.set c.g f
        | none => c.g).logger = c.g.logger := by
      cases t.fset <;> rfl
    refine ⟨hps, ?_, rfl, fun i t' h hsafe => ⟨t', h, hsafe⟩,
      fun i v _ hc => by cases hc⟩
    show (match t.fset with
      | some f => MaxLogLevelFilter.set c.g f
      | none => c.g).logger = INITIALIZING
    rw [hglog]
    exact hlog
  | instStore j t hget hpc =>
    exfalso
    obtain ⟨j', tj', hj', hpj'⟩ := hI.regIdone hreg
    have hji : j = j' := hI.winUnique j j' t tj' hget hj'
      (by simp [InstThread.isWinner, hpc])
      (by simp [InstThread.isWinner, hpj'])
    rw [← hji, hget] at hj'
    cases hj'
    rw [hpc] at hpj'
    cases hpj'
  | instAtexit j t hget hpc =>
    exact ⟨hps, hlog, rfl, fun i t' h hsafe => ⟨t', h, hsafe⟩,
      fun i v _ hc => by cases hc⟩
  | shutSwap hsns hreg2 =>
    exact absurd hsns hps
  | shutSpin old hsns hr =>
    exact ⟨hps, hlog, rfl, fun i t' h hsafe => ⟨t', h, hsafe⟩,
      fun i v _ hc => by cases hc⟩
  | shutZero old hsns hr =>
    refine ⟨?_, hlog, rfl, fun i t' h hsafe => ⟨t', h, hsafe⟩,
      fun i v _ hc => by cases hc⟩
    intro hc
    cases hc
  | shutRelease old hsns =>
    refine ⟨?_, hlog, rfl, fun i t' h hsafe => ⟨t', h, hsafe⟩,
      fun i v _ hc => by cases hc⟩
    intro hc
    cases hc
  | setterStep k t hget hd =>
    exact ⟨hps, hlog, rfl, fun i t' h hsafe => ⟨t', h, hsafe⟩,
      fun i v _ hc => by cases hc⟩

theorem exec_after_swap {c : Config} {ls : List Label} {c' : Config}
    (hex : ExecM c ls c') :
    Inv c → pastSwap c →
      pastSwap c' ∧ c'.g.logger = INITIALIZING ∧
      ls.countP Label.isStoreL = 0 ∧
      (∀ i t, c.accs.get? i = some t → SafeAccPC t.pc →
        (∃ t', c'.accs.get? i = some t' ∧ SafeAccPC t'.pc) ∧
        (∀ v, Label.recCall i v ∉ ls)) := by
  induction hex with
  | refl c =>
    intro hI hps
    exact ⟨hps, (hI.swapInv hps).2, by simp,
      fun i t hget hsafe => ⟨⟨t, hget, hsafe⟩, fun v => by simp⟩⟩
  | cons c l c1 ls c2 h1 _h2 ih =>
    intro hI hps
    have hstep := step_after_swap hI hps h1
    have hI1 := inv_step hI h1
    have hrest := ih hI1 hstep.1
    refine ⟨hrest.1, hrest.2.1, ?_, ?_⟩
    · rw [List.countP_cons, hrest.2.2.1, hstep.2.2.1]
      rfl
    · intro i t hget hsafe
      obtain ⟨t1, hget1, hsafe1⟩ := hstep.2.2.2.1 i t hget hsafe
      have h4 := hrest.2.2.2 i t1 hget1 hsafe1
      refine ⟨h4.1, ?_⟩
      intro v hmem
      rcases List.mem_cons.mp hmem with h | h
      · exact hstep.2.2.2.2 i v ⟨t, hget, hsafe⟩ h.symm
      · exact h4.2 v h

theorem from_usize_isSome {n : Nat} (h : n ≤ 5) :
    (LogLevelFilter.from_usize n).isSome = true := by
  interval_cases n <;> rfl

/-! ## The concurrency claims -/

/-- **C4.** Along every execution of the machine (any number of
`__enabled`/`__log`, `set_logger` and token-`set` calls interleaved with
installation and shutdown), the guard refcount always equals the number of
accessor threads currently inside the counted region — so it is never
negative, every completed call has restored it to its prior value, and it
is zero whenever no call is in flight. -/
theorem claim_C4_refcount_balance (c0 : Config) (ls : List Label)
    (c : Config) (h0 : InitConf c0) (hex : ExecM c0 ls c) :
    c.g.refcount = (countCounted c : Int) ∧
    0 ≤ c.g.refcount ∧
    ((∀ t ∈ c.accs, t.pc = AccPC.ready ∨ ∃ r, t.pc = AccPC.finished r) →
      c.g.refcount = 0) := by
  have hI := inv_exec hex (inv_init h0)
  refine ⟨hI.refEq, ?_, ?_⟩
  · rw [hI.refEq]
    exact Int.natCast_nonneg _
  · intro hall
    have h0c : countCounted c = 0 := by
      rw [countCounted, List.countP_eq_zero]
      intro t ht
      rcases hall t ht with h | ⟨r, h⟩ <;> simp [AccThread.isCounted, h]
    rw [hI.refEq, h0c]
    rfl

/-- Witness for C4 at a concrete initial configuration. -/
theorem claim_C4_refcount_balance_witness :
    InitConf confW ∧ confW.g.refcount = (countCounted confW : Int) :=
  ⟨by decide,
    (claim_C4_refcount_balance confW [] confW (by decide)
      (ExecM.refl confW)).1⟩

/-- **C5.** Along every execution the factory runs at most once and the
slot is stored (enters `Active`) at most once; and once the shutdown
routine has swapped the slot out, every continuation keeps the slot on the
sentinel — it is never stored again — and no `__enabled`/`__log` call that
begins after the swap ever reaches the recorder. -/
theorem claim_C5_install_once (c0 : Config) (ls : List Label) (c : Config)
    (h0 : InitConf c0) (hex : ExecM c0 ls c) :
    ls.countP Label.isFactoryL ≤ 1 ∧
    ls.countP Label.isStoreL ≤ 1 ∧
    (pastSwap c →
      ∀ (ls' : List Label) (c' : Config), ExecM c ls' c' →
        ls'.countP Label.isStoreL = 0 ∧ c'.g.logger = INITIALIZING ∧
        (∀ i t, c.accs.get? i = some t →
          (t.pc = AccPC.ready ∨ t.pc = AccPC.counted) →
          ∀ v, Label.recCall i v ∉ ls')) := by
  have hI := inv_exec hex (inv_init h0)
  obtain ⟨hf0, hs0, _hr0⟩ := initconf_measures h0
  have hfac := exec_measure_count facMeasure Label.isFactoryL
    (fun a lb b h => facMeasure_step h) hex
  have hsto := exec_measure_count storeMeasure Label.isStoreL
    (fun a lb b h => storeMeasure_step h) hex
  refine ⟨?_, ?_, ?_⟩
  · have := facMeasure_le_one hI
    omega
  · have := storeMeasure_le_one hI
    omega
  · intro hps ls' c' hex'
    have h := exec_after_swap hex' hI hps
    refine ⟨h.2.2.1, h.2.1, ?_⟩
    intro i t hget hrc v
    refine (h.2.2.2 i t hget ?_).2 v
    rcases hrc with hh | hh
    · exact Or.inl hh
    · exact Or.inr (Or.inl hh)

/-- Witness for C5 at a concrete initial configuration. -/
theorem claim_C5_install_once_witness :
    InitConf confW ∧ ([] : List Label).countP Label.isFactoryL ≤ 1 :=
  ⟨by decide,
    (claim_C5_install_once confW [] confW (by decide)
      (ExecM.refl confW)).1⟩

/-- **C3.** Once the shutdown routine has swapped the slot to the
sentinel, the slot reads `INITIALIZING`, and every acquisition that begins
after the swap (accessor still before or at its refcount increment)
never reaches the recorder; the recorder is released exactly as many times
as the shutdown routine has completed — never more than once — the
release step fires only from the drained state, and the drained state is
only ever entered from the spinning state upon reading a zero refcount. -/
theorem claim_C3_shutdown_drain (c0 : Config) (ls : List Label)
    (c : Config) (h0 : InitConf c0) (hex : ExecM c0 ls c) :
    (pastSwap c → c.g.logger = INITIALIZING ∧
      (∀ i t, c.accs.get? i = some t →
        (t.pc = AccPC.ready ∨ t.pc = AccPC.counted) →
        ∀ (ls' : List Label) (c' : Config), ExecM c ls' c' →
          ∀ v, Label.recCall i v ∉ ls')) ∧
    ls.countP Label.isReleaseL = relMeasure c ∧
    ls.countP Label.isReleaseL ≤ 1 ∧
    (∀ (c1 : Config) (lb : Label) (c2 : Config) (hd : Nat),
      StepM c1 lb c2 → lb = Label.releaseRec hd →
        c1.shut = ShutPC.drained hd ∧ c2.shut = ShutPC.sdone hd) ∧
    (∀ (c1 : Config) (lb : Label) (c2 : Config) (hd : Nat),
      StepM c1 lb c2 → c1.shut ≠ ShutPC.drained hd →
      c2.shut = ShutPC.drained hd →
        c1.shut = ShutPC.swapped hd ∧ c1.g.refcount = 0) := by
  have hI := inv_exec hex (inv_init h0)
  obtain ⟨_hf0, _hs0, hr0⟩ := initconf_measures h0
  have hrel := exec_measure_count relMeasure Label.isReleaseL
    (fun a lb b h => relMeasure_step h) hex
  refine ⟨?_, ?_, ?_, ?_, ?_⟩
  · intro hps
    refine ⟨(hI.swapInv hps).2, ?_⟩
    intro i t hget hrc ls' c' hex' v
    have h := exec_after_swap hex' hI hps
    refine (h.2.2.2 i t hget ?_).2 v
    rcases hrc with hh | hh
    · exact Or.inl hh
    · exact Or.inr (Or.inl hh)
  · omega
  · have := relMeasure_le_one c
    omega
  · intro c1 lb c2 hd hstp hlb
    subst hlb
    cases hstp with
    | shutRelease old hsns => exact ⟨hsns, rfl⟩
  · intro c1 lb c2 hd hstp hne h2
    cases hstp with
    | shutSwap hsns hreg => cases h2
    | shutZero old hsns hr =>
      cases h2
      exact ⟨hsns, hr⟩
    | shutRelease old hsns => cases h2
    | _ => exact absurd h2 hne

/-- Witness for C3 at a concrete initial configuration. -/
theorem claim_C3_shutdown_drain_witness :
    InitConf confW ∧
      ([] : List Label).countP Label.isReleaseL = relMeasure confW :=
  ⟨by decide,
    (claim_C3_shutdown_drain confW [] confW (by decide)
      (ExecM.refl confW)).2.1⟩

/-- **C9.** The zero-initialized max-level atomic reads as
`LogLevelFilter::Off` before any installation or token-`set` (so the macro
fast path suppresses everything at startup), and along every execution the
atomic only ever holds ordinals `0`–`5`, so the unchecked
ordinal-to-filter conversion in `max_log_level` always yields a valid
`LogLevelFilter`. -/
theorem claim_C9_max_level_zero_init (c0 : Config) (ls : List Label)
    (c : Config) (h0 : InitConf c0) (hex : ExecM c0 ls c) :
    max_log_level c0.g = some LogLevelFilter.Off ∧
    c.g.maxLevel ≤ 5 ∧
    (max_log_level c.g).isSome = true ∧
    ((∀ lb ∈ ls, lb.isMaxWriteL = false) →
      max_log_level c.g = some LogLevelFilter.Off) := by
  have hI := inv_exec hex (inv_init h0)
  have hg : c0.g = initialG := h0.1
  refine ⟨by rw [hg]; rfl, hI.maxle, ?_, ?_⟩
  · rw [max_log_level]
    exact from_usize_isSome hI.maxle
  · intro hnw
    have h := exec_maxLevel_const hex hnw
    rw [max_log_level, h, hg]
    rfl

/-- Witness for C9 at a concrete initial configuration. -/
theorem claim_C9_max_level_zero_init_witness :
    InitConf confW ∧ max_log_level confW.g = some LogLevelFilter.Off :=
  ⟨by decide,
    (claim_C9_max_level_zero_init confW [] confW (by decide)
      (ExecM.refl confW)).1⟩

end LogSpec
